import Mathlib

/-!
Verification of the `atomic_financial_agent` pipeline (shallow embedding).

Python floats are modelled as `ℚ`; a pandas `NaN` cell is `Option.none`.
Python strings are modelled as `List Char` (`Str` below).  Each definition
is translated from the named source function; where IEEE-754 special values
(`inf`, `0/0 = NaN`) decide a branch, the branch is made explicit and the
originating expression is noted in a comment.
-/

set_option maxRecDepth 4000

namespace AFA

abbrev Str := List Char

/-! ### Risk analysis — `agents/risk_analysis.py`, `RiskAnalysisAgent.execute`

`price.cummax()`: running maximum of the price column. -/

def runMaxAux (m : ℚ) : List ℚ → List ℚ
  | [] => []
  | x :: xs => max m x :: runMaxAux (max m x) xs

def cummax : List ℚ → List ℚ
  | [] => []
  | x :: xs => x :: runMaxAux x xs

/-- Model of `pandas.Series.min()` over an all-numeric column: `none` on an empty
series (pandas yields NaN there). -/
def minQ : List ℚ → Option ℚ
  | [] => none
  | x :: xs =>
    match minQ xs with
    | none => some x
    | some m => some (min x m)

/-- Embeds `(price / price.cummax() - 1)` from `RiskAnalysisAgent.execute`. -/
def drawdowns (price : List ℚ) : List ℚ :=
  List.zipWith (fun x m => x / m - 1) price (cummax price)

/-- Embeds `Max_Drawdown = (price / price.cummax() - 1).min()`. -/
def maxDrawdown (price : List ℚ) : Option ℚ :=
  minQ (drawdowns price)

/-! `returns = price.pct_change()`: first cell NaN, then `p i / p (i-1) - 1`. -/

def pctChange : List ℚ → List (Option ℚ)
  | [] => []
  | x :: xs => none :: List.zipWith (fun prev cur => some (cur / prev - 1)) (x :: xs) xs

/-- Sample variance with `ddof = 1` (the default of `pandas.Series.std`),
on an explicit list of numbers; `none` when fewer than 2 values (pandas
yields NaN there).  The square of the standard deviation is used throughout
because `√252` is irrational and the claims only need the scaled square. -/
def sampleVarQ (l : List ℚ) : Option ℚ :=
  if l.length < 2 then none
  else
    some (((l.map (fun x => (x - l.sum / l.length) ^ 2)).sum) / (l.length - 1))

/-- Model of `pandas.Series.std()` with its default `skipna = True`: NaN cells are
dropped, then the sample variance of the remaining values is taken
(squared model of the standard deviation). -/
def stdSqSkipNa (xs : List (Option ℚ)) : Option ℚ :=
  sampleVarQ (xs.filterMap id)

/-- Square of `Annual_Volatility = returns.std() * np.sqrt(252)` from
`RiskAnalysisAgent.execute`. -/
def annualVolatilitySq (price : List ℚ) : Option ℚ :=
  (stdSqSkipNa (pctChange price)).map (fun v => v * 252)

/-- Day-over-day percentage changes as the spec words them ("all
day-over-day percentage changes"): no leading NaN cell. -/
def specReturns : List ℚ → List ℚ
  | [] => []
  | x :: xs => List.zipWith (fun prev cur => cur / prev - 1) (x :: xs) xs

/-! ### Helper lemmas for the drawdown development -/

theorem runMaxAux_length (m : ℚ) (xs : List ℚ) :
    (runMaxAux m xs).length = xs.length := by
  induction xs generalizing m with
  | nil => rfl
  | cons x xs ih => simp [runMaxAux, ih]

theorem cummax_length (p : List ℚ) : (cummax p).length = p.length := by
  cases p with
  | nil => rfl
  | cons x xs => simp [cummax, runMaxAux_length]

theorem drawdowns_nonpos_aux (xs : List ℚ) (m : ℚ)
    (hpos : ∀ x ∈ xs, 0 < x) (hm : 0 < m) :
    ∀ z ∈ List.zipWith (fun x c => x / c - 1) xs (runMaxAux m xs), z ≤ 0 := by
  induction xs generalizing m with
  | nil => intro z hz; simp [runMaxAux] at hz
  | cons x xs ih =>
    intro z hz
    simp only [runMaxAux, List.zipWith_cons_cons, List.mem_cons] at hz
    rcases hz with hz | hz
    · have hx : 0 < x := hpos x (by simp)
      have hmx : 0 < max m x := lt_max_of_lt_right hx
      have hxle : x ≤ max m x := le_max_right m x
      have : x / max m x ≤ 1 := (div_le_one hmx).mpr hxle
      simpa [hz] using by linarith
    · exact ih (max m x) (fun y hy => hpos y (by simp [hy]))
        (lt_max_of_lt_right (hpos x (by simp))) z hz

theorem minQ_isSome {l : List ℚ} (h : l ≠ []) : ∃ d, minQ l = some d := by
  cases l with
  | nil => exact absurd rfl h
  | cons x xs =>
    cases hm : minQ xs with
    | none => exact ⟨x, by simp [minQ, hm]⟩
    | some m => exact ⟨min x m, by simp [minQ, hm]⟩

theorem minQ_mem {l : List ℚ} {d : ℚ} (h : minQ l = some d) : d ∈ l := by
  induction l with
  | nil => simp [minQ] at h
  | cons x xs ih =>
    simp only [minQ] at h
    cases hm : minQ xs with
    | none =>
      rw [hm] at h
      simp at h
      simp [h]
    | some m =>
      rw [hm] at h
      simp at h
      rcases min_choice x m with hc | hc
      · rw [← h, hc]; simp
      · have hdm : d = m := by rw [← h, hc]
        subst hdm
        exact List.mem_cons_of_mem x (ih hm)

theorem minQ_cons (x : ℚ) (xs : List ℚ) :
    minQ (x :: xs) = match minQ xs with
      | none => some x
      | some m => some (min x m) := rfl

theorem minQ_of_all_zero {l : List ℚ} (hne : l ≠ []) (h : ∀ z ∈ l, z = 0) :
    minQ l = some 0 := by
  induction l with
  | nil => exact absurd rfl hne
  | cons x xs ih =>
    cases xs with
    | nil =>
      have hx : x = 0 := h x (by simp)
      simp [minQ, hx]
    | cons y ys =>
      have htail : minQ (y :: ys) = some 0 :=
        ih (by simp) (fun z hz => h z (List.mem_cons_of_mem x hz))
      have hx : x = 0 := h x (by simp)
      rw [minQ_cons, htail, hx]
      simp

theorem runMaxAux_of_chain (x : ℚ) (xs : List ℚ)
    (hch : List.Chain' (· ≤ ·) (x :: xs)) : runMaxAux x xs = xs := by
  induction xs generalizing x with
  | nil => rfl
  | cons y ys ih =>
    have hxy : x ≤ y := (List.chain'_cons.mp hch).1
    have htail : List.Chain' (· ≤ ·) (y :: ys) := (List.chain'_cons.mp hch).2
    simp [runMaxAux, max_eq_right hxy, ih y htail]

theorem drawdowns_self_zero (p : List ℚ) (hpos : ∀ x ∈ p, 0 < x) :
    ∀ z ∈ List.zipWith (fun x c => x / c - 1) p p, z = 0 := by
  induction p with
  | nil => intro z hz; simp at hz
  | cons x xs ih =>
    intro z hz
    simp only [List.zipWith_cons_cons, List.mem_cons] at hz
    rcases hz with hz | hz
    · have hx : x ≠ 0 := ne_of_gt (hpos x (by simp))
      simp [hz, div_self hx]
    · exact ih (fun y hy => hpos y (List.mem_cons_of_mem x hy)) z hz

/-- C7: for every non-empty positive price series, `Max_Drawdown` as
computed by `RiskAnalysisAgent.execute` — the minimum over all dates of
`price / price.cummax() - 1` — is defined and `≤ 0`; and for every
monotonically non-decreasing series it equals exactly 0. -/
theorem maxDrawdown_nonpos_and_zero_on_monotone (p : List ℚ)
    (hne : p ≠ []) (hpos : ∀ x ∈ p, 0 < x) :
    (∃ d, maxDrawdown p = some d ∧ d ≤ 0) ∧
      (List.Chain' (· ≤ ·) p → maxDrawdown p = some 0) := by
  constructor
  · have hdd : drawdowns p ≠ [] := by
      cases p with
      | nil => exact absurd rfl hne
      | cons x xs =>
        simp [drawdowns, cummax, List.zipWith_cons_cons]
    obtain ⟨d, hd⟩ := minQ_isSome hdd
    refine ⟨d, hd, ?_⟩
    have hmem := minQ_mem hd
    cases p with
    | nil => exact absurd rfl hne
    | cons x xs =>
      have hx : 0 < x := hpos x (by simp)
      simp only [drawdowns, cummax, List.zipWith_cons_cons] at hmem
      rcases List.mem_cons.mp hmem with hz | hz
      · have : x / x - 1 = 0 := by simp [div_self (ne_of_gt hx)]
        rw [hz, this]
      · exact drawdowns_nonpos_aux xs x
          (fun y hy => hpos y (List.mem_cons_of_mem x hy)) hx d hz
  · intro hch
    cases p with
    | nil => exact absurd rfl hne
    | cons x xs =>
      have hrm : runMaxAux x xs = xs := runMaxAux_of_chain x xs hch
      have : drawdowns (x :: xs) =
          List.zipWith (fun y c => y / c - 1) (x :: xs) (x :: xs) := by
        simp [drawdowns, cummax, hrm]
      rw [maxDrawdown, this]
      exact minQ_of_all_zero
        (by simp [List.zipWith_cons_cons])
        (drawdowns_self_zero (x :: xs) hpos)

/-- C7 witness: prices [10, 11, 12, 13] give drawdown exactly 0. -/
theorem maxDrawdown_witness :
    maxDrawdown [(10 : ℚ), 11, 12, 13] = some 0 :=
  (maxDrawdown_nonpos_and_zero_on_monotone [(10 : ℚ), 11, 12, 13]
    (by decide) (by decide)).2 (by norm_num [List.chain'_cons])

/-! ### C8: annual volatility -/

theorem filterMap_zipWith_some (f : ℚ → ℚ → ℚ) :
    ∀ (l r : List ℚ),
      (List.zipWith (fun a b => some (f a b)) l r).filterMap id =
        List.zipWith f l r := by
  intro l
  induction l with
  | nil => intro r; rfl
  | cons x xs ih =>
    intro r
    cases r with
    | nil => rfl
    | cons y ys => simp [List.zipWith_cons_cons, ih]

/-- C8: the squared `Annual_Volatility` of `RiskAnalysisAgent.execute`
equals 252 times the sample variance (squared standard deviation) of the
day-over-day percentage changes; and for a series with fewer than 2 data
points it is undefined (pandas NaN).  Squares are compared because
`√252` is irrational: `(std · √252)² = var · 252`. -/
theorem annualVolatilitySq_spec (p : List ℚ) (hpos : ∀ x ∈ p, 0 < x) :
    annualVolatilitySq p = (sampleVarQ (specReturns p)).map (fun v => 252 * v)
      ∧ (p.length < 2 → annualVolatilitySq p = none) := by
  constructor
  · cases p with
    | nil => rfl
    | cons x xs =>
      have hfm : (pctChange (x :: xs)).filterMap id = specReturns (x :: xs) := by
        simp only [pctChange, specReturns, List.filterMap_cons]
        exact filterMap_zipWith_some (fun prev cur => cur / prev - 1) (x :: xs) xs
      simp only [annualVolatilitySq, stdSqSkipNa, hfm]
      cases h : sampleVarQ (specReturns (x :: xs)) with
      | none => rfl
      | some v => simp [mul_comm]
  · intro hlen
    cases p with
    | nil => rfl
    | cons x xs =>
      cases xs with
      | nil => rfl
      | cons y ys => simp at hlen; omega

/-- C8 witness: [1, 2, 4] has returns [1, 1], variance 0, so the squared
annual volatility is 0 = 252 · 0, and [5] alone is undefined. -/
theorem annualVolatilitySq_witness :
    annualVolatilitySq [(1 : ℚ), 2, 4] =
        (sampleVarQ (specReturns [(1 : ℚ), 2, 4])).map (fun v => 252 * v) ∧
      annualVolatilitySq [(5 : ℚ)] = none := by
  constructor
  · exact (annualVolatilitySq_spec [(1 : ℚ), 2, 4] (by decide)).1
  · exact (annualVolatilitySq_spec [(5 : ℚ)] (by decide)).2 (by decide)

/-! ### Technical analysis — `agents/technical_analysis.py`,
`TechnicalAnalysisAgent.execute` and `TechnicalAnalysisAgent.rsi`.

`series.rolling(w)` uses pandas' default `min_periods = w`: the window
ending at index `i` holds the cells `xs[i+1-w .. i]`, and the result is
NaN unless the window is full and every cell in it is a number (NaN cells
count against `min_periods`). -/

def windowAt (w i : Nat) (xs : List (Option ℚ)) : List (Option ℚ) :=
  (xs.drop (i + 1 - w)).take w

/-- Value of `xs.rolling(w).mean()` at index `i`. -/
def rollingMeanAt (w : Nat) (xs : List (Option ℚ)) (i : Nat) : Option ℚ :=
  if w ≤ i + 1 ∧ i < xs.length then
    if (windowAt w i xs).all Option.isSome then
      some ((((windowAt w i xs).filterMap id).sum) / w)
    else none
  else none

/-- Value of `xs.rolling(w).std()` at index `i`, modelled by its square (the
sample variance, `ddof = 1`), since the standard deviation itself is
irrational; the defined/missing pattern is identical. -/
def rollingVarAt (w : Nat) (xs : List (Option ℚ)) (i : Nat) : Option ℚ :=
  if w ≤ i + 1 ∧ i < xs.length then
    if (windowAt w i xs).all Option.isSome then
      sampleVarQ ((windowAt w i xs).filterMap id)
    else none
  else none

/-- Embeds `SMA_20 = temp[close_col].rolling(20).mean()` at index `i`. -/
def sma20At (p : List ℚ) (i : Nat) : Option ℚ :=
  rollingMeanAt 20 (p.map some) i

/-- Embeds `SMA_50 = temp[close_col].rolling(50).mean()` at index `i`. -/
def sma50At (p : List ℚ) (i : Nat) : Option ℚ :=
  rollingMeanAt 50 (p.map some) i

/-- Embeds `delta = series.diff()`: leading NaN, then successive differences. -/
def diffCol : List ℚ → List (Option ℚ)
  | [] => []
  | x :: xs => none :: List.zipWith (fun prev cur => some (cur - prev)) (x :: xs) xs

/-- Embeds `gain = delta.clip(lower=0)` (NaN stays NaN). -/
def gainCol (p : List ℚ) : List (Option ℚ) :=
  (diffCol p).map (Option.map (fun d => max d 0))

/-- Embeds `loss = -delta.clip(upper=0)` (NaN stays NaN). -/
def lossCol (p : List ℚ) : List (Option ℚ) :=
  (diffCol p).map (Option.map (fun d => max (-d) 0))

def avgGainAt (p : List ℚ) (i : Nat) : Option ℚ :=
  rollingMeanAt 14 (gainCol p) i

def avgLossAt (p : List ℚ) (i : Nat) : Option ℚ :=
  rollingMeanAt 14 (lossCol p) i

/-- Embeds `rsi = 100 - 100/(1 + gain.rolling(14).mean() / loss.rolling(14).mean())`
with numpy float semantics made explicit: when the average loss is 0 and
the average gain is positive, `rs = g/0 = inf` and the result is 100;
when both averages are 0, `rs = 0/0 = NaN` and the result is NaN. -/
def rsiAt (p : List ℚ) (i : Nat) : Option ℚ :=
  match avgGainAt p i, avgLossAt p i with
  | some g, some l =>
    if l = 0 then (if g = 0 then none else some 100)
    else some (100 - 100 / (1 + g / l))
  | _, _ => none

/-- Embeds `Volatility = temp[close_col].pct_change().rolling(20).std()` at
index `i` (squared model of the std). -/
def volAt (p : List ℚ) (i : Nat) : Option ℚ :=
  rollingVarAt 20 (pctChange p) i

def colOf (f : Nat → Option ℚ) (n : Nat) : List (Option ℚ) :=
  (List.range n).map f

def sma20Col (p : List ℚ) : List (Option ℚ) := colOf (sma20At p) p.length

def volCol (p : List ℚ) : List (Option ℚ) := colOf (volAt p) p.length

def countSome (l : List (Option ℚ)) : Nat := l.countP (fun x => x.isSome)

/-! ### Defined/missing pattern of the rolling columns -/

theorem zipWith_some_eq_map (f : ℚ → ℚ → ℚ) :
    ∀ (l r : List ℚ),
      List.zipWith (fun a b => some (f a b)) l r = (List.zipWith f l r).map some := by
  intro l
  induction l with
  | nil => intro r; rfl
  | cons x xs ih =>
    intro r
    cases r with
    | nil => rfl
    | cons y ys => simp [List.zipWith_cons_cons, ih]

theorem filterMap_id_map_some (l : List ℚ) : (l.map some).filterMap id = l := by
  induction l with
  | nil => rfl
  | cons x xs ih => simp [ih]

theorem rollingMeanAt_out_of_range (w : Nat) (xs : List (Option ℚ)) (i : Nat)
    (h : i + 1 < w ∨ xs.length ≤ i) : rollingMeanAt w xs i = none := by
  rw [rollingMeanAt, if_neg]
  rintro ⟨h1, h2⟩
  rcases h with h | h <;> omega

theorem rollingVarAt_out_of_range (w : Nat) (xs : List (Option ℚ)) (i : Nat)
    (h : i + 1 < w ∨ xs.length ≤ i) : rollingVarAt w xs i = none := by
  rw [rollingVarAt, if_neg]
  rintro ⟨h1, h2⟩
  rcases h with h | h <;> omega

theorem windowAt_cons_head (w : Nat) (l : List (Option ℚ)) (i : Nat)
    (hw : 0 < w) (hiw : i + 1 ≤ w) :
    windowAt w i (none :: l) = none :: l.take (w - 1) := by
  have h0 : i + 1 - w = 0 := by omega
  cases w with
  | zero => omega
  | succ w' => simp [windowAt, h0, List.take_succ_cons]

/-- A rolling mean over a column whose first cell is NaN is NaN at every
index `i < w` (either the window is short or it contains the NaN cell). -/
theorem rollingMeanAt_cons_none_of_lt (w : Nat) (l : List (Option ℚ)) (i : Nat)
    (hw : 0 < w) (hi : i < w) : rollingMeanAt w (none :: l) i = none := by
  by_cases hr : w ≤ i + 1 ∧ i < (none :: l).length
  · rw [rollingMeanAt, if_pos hr,
      windowAt_cons_head w l i hw (by omega), if_neg]
    simp
  · rw [rollingMeanAt, if_neg hr]

theorem rollingVarAt_cons_none_of_lt (w : Nat) (l : List (Option ℚ)) (i : Nat)
    (hw : 0 < w) (hi : i < w) : rollingVarAt w (none :: l) i = none := by
  by_cases hr : w ≤ i + 1 ∧ i < (none :: l).length
  · rw [rollingVarAt, if_pos hr,
      windowAt_cons_head w l i hw (by omega), if_neg]
    simp
  · rw [rollingVarAt, if_neg hr]

theorem windowAt_cons_map_some (w : Nat) (l : List ℚ) (i : Nat)
    (hwi : w ≤ i) :
    windowAt w i (none :: l.map some) = ((l.drop (i - w)).take w).map some := by
  have h1 : i + 1 - w = (i - w) + 1 := by omega
  simp [windowAt, h1, List.drop_succ_cons, List.map_drop, List.map_take]

theorem windowAt_map_some (w : Nat) (p : List ℚ) (i : Nat) :
    windowAt w i (p.map some) = ((p.drop (i + 1 - w)).take w).map some := by
  simp [windowAt, List.map_drop, List.map_take]

theorem all_isSome_map_some (l : List ℚ) :
    (l.map some).all Option.isSome = true := by
  simp [List.all_eq_true]

/-- A rolling mean over an all-number column is defined exactly from
index `w - 1` on. -/
theorem rollingMeanAt_map_some_isSome (w : Nat) (p : List ℚ) (i : Nat)
    (hr : w ≤ i + 1) (hi : i < p.length) :
    (rollingMeanAt w (p.map some) i).isSome = true := by
  rw [rollingMeanAt, if_pos ⟨hr, by simpa using hi⟩, windowAt_map_some,
    if_pos (all_isSome_map_some _)]
  rfl

theorem rollingMeanAt_cons_map_some_isSome (w : Nat) (l : List ℚ) (i : Nat)
    (hwi : w ≤ i) (hi : i < l.length + 1) :
    (rollingMeanAt w (none :: l.map some) i).isSome = true := by
  rw [rollingMeanAt, if_pos ⟨by omega, by simpa using hi⟩,
    windowAt_cons_map_some w l i hwi, if_pos (all_isSome_map_some _)]
  rfl

theorem rollingVarAt_cons_map_some_isSome (w : Nat) (l : List ℚ) (i : Nat)
    (hw : 2 ≤ w) (hwi : w ≤ i) (hi : i < l.length + 1) :
    (rollingVarAt w (none :: l.map some) i).isSome = true := by
  rw [rollingVarAt, if_pos ⟨by omega, by simpa using hi⟩,
    windowAt_cons_map_some w l i hwi, if_pos (all_isSome_map_some _),
    filterMap_id_map_some]
  have hlen : ((l.drop (i - w)).take w).length = w := by
    simp [List.length_take, List.length_drop]
    omega
  rw [sampleVarQ, if_neg (by omega)]
  rfl

/-- The numeric part of `series.diff()`. -/
def diffs : List ℚ → List ℚ
  | [] => []
  | x :: xs => List.zipWith (fun prev cur => cur - prev) (x :: xs) xs

theorem pctChange_cons (x : ℚ) (xs : List ℚ) :
    pctChange (x :: xs) = none :: (specReturns (x :: xs)).map some := by
  simp [pctChange, specReturns, zipWith_some_eq_map]

theorem specReturns_length (x : ℚ) (xs : List ℚ) :
    (specReturns (x :: xs)).length = xs.length := by
  simp [specReturns]

theorem pctChange_length (p : List ℚ) : (pctChange p).length = p.length := by
  cases p with
  | nil => rfl
  | cons x xs => rw [pctChange_cons]; simp [specReturns_length]

theorem diffs_length (x : ℚ) (xs : List ℚ) :
    (diffs (x :: xs)).length = xs.length := by
  simp [diffs]

theorem gainCol_cons (x : ℚ) (xs : List ℚ) :
    gainCol (x :: xs) =
      none :: ((diffs (x :: xs)).map (fun d => max d 0)).map some := by
  simp [gainCol, diffCol, diffs, zipWith_some_eq_map, List.map_map,
    Function.comp_def]

theorem lossCol_cons (x : ℚ) (xs : List ℚ) :
    lossCol (x :: xs) =
      none :: ((diffs (x :: xs)).map (fun d => max (-d) 0)).map some := by
  simp [lossCol, diffCol, diffs, zipWith_some_eq_map, List.map_map,
    Function.comp_def]

theorem gainCol_length (p : List ℚ) : (gainCol p).length = p.length := by
  cases p with
  | nil => rfl
  | cons x xs => rw [gainCol_cons]; simp [diffs_length]

theorem lossCol_length (p : List ℚ) : (lossCol p).length = p.length := by
  cases p with
  | nil => rfl
  | cons x xs => rw [lossCol_cons]; simp [diffs_length]

theorem sma20At_none_of_lt (p : List ℚ) (i : Nat) (hi : i < 19) :
    sma20At p i = none :=
  rollingMeanAt_out_of_range 20 _ i (Or.inl (by omega))

theorem sma50At_none_of_lt (p : List ℚ) (i : Nat) (hi : i < 49) :
    sma50At p i = none :=
  rollingMeanAt_out_of_range 50 _ i (Or.inl (by omega))

theorem avgGainAt_none_of_lt (p : List ℚ) (i : Nat) (hi : i < 14) :
    avgGainAt p i = none := by
  cases p with
  | nil =>
    exact rollingMeanAt_out_of_range 14 _ i (Or.inr (by simp [gainCol, diffCol]))
  | cons x xs =>
    rw [avgGainAt, gainCol_cons]
    exact rollingMeanAt_cons_none_of_lt 14 _ i (by norm_num) hi

theorem rsiAt_none_of_lt (p : List ℚ) (i : Nat) (hi : i < 14) :
    rsiAt p i = none := by
  have hg := avgGainAt_none_of_lt p i hi
  cases hl : avgLossAt p i <;> simp [rsiAt, hg, hl]

theorem volAt_none_of_lt (p : List ℚ) (i : Nat) (hi : i < 20) :
    volAt p i = none := by
  cases p with
  | nil => exact rollingVarAt_out_of_range 20 _ i (Or.inr (by simp [pctChange]))
  | cons x xs =>
    rw [volAt, pctChange_cons]
    exact rollingVarAt_cons_none_of_lt 20 _ i (by norm_num) hi

theorem sma20At_isSome (p : List ℚ) (i : Nat) (h19 : 19 ≤ i)
    (hi : i < p.length) : (sma20At p i).isSome = true :=
  rollingMeanAt_map_some_isSome 20 p i (by omega) hi

theorem volAt_isSome (p : List ℚ) (i : Nat) (h20 : 20 ≤ i)
    (hi : i < p.length) : (volAt p i).isSome = true := by
  cases p with
  | nil => simp at hi
  | cons x xs =>
    rw [volAt, pctChange_cons]
    exact rollingVarAt_cons_map_some_isSome 20 _ i (by norm_num) h20
      (by rw [specReturns_length]; simpa using hi)

theorem avgGainAt_isSome (p : List ℚ) (i : Nat) (h14 : 14 ≤ i)
    (hi : i < p.length) : (avgGainAt p i).isSome = true := by
  cases p with
  | nil => simp at hi
  | cons x xs =>
    rw [avgGainAt, gainCol_cons]
    exact rollingMeanAt_cons_map_some_isSome 14 _ i h14
      (by simp only [List.length_map, diffs_length]; simpa using hi)

theorem avgLossAt_isSome (p : List ℚ) (i : Nat) (h14 : 14 ≤ i)
    (hi : i < p.length) : (avgLossAt p i).isSome = true := by
  cases p with
  | nil => simp at hi
  | cons x xs =>
    rw [avgLossAt, lossCol_cons]
    exact rollingMeanAt_cons_map_some_isSome 14 _ i h14
      (by simp only [List.length_map, diffs_length]; simpa using hi)

theorem countP_range_ge (k n : Nat) :
    (List.range n).countP (fun i => decide (k ≤ i)) = n - k := by
  induction n with
  | zero => simp
  | succ n ih =>
    rw [List.range_succ, List.countP_append, ih]
    by_cases h : k ≤ n
    · simp [List.countP_cons, h]
      omega
    · simp [List.countP_cons, h]
      omega

theorem countSome_sma20Col (p : List ℚ) :
    countSome (sma20Col p) = p.length - 19 := by
  rw [countSome, sma20Col, colOf, List.countP_map]
  rw [show p.length - 19 = p.length - 19 from rfl, ← countP_range_ge 19 p.length]
  apply List.countP_congr
  intro i hi
  have hin : i < p.length := List.mem_range.mp hi
  by_cases h19 : 19 ≤ i
  · simp [Function.comp, sma20At_isSome p i h19 hin, h19]
  · simp [Function.comp, sma20At_none_of_lt p i (by omega), h19]

theorem countSome_volCol (p : List ℚ) :
    countSome (volCol p) = p.length - 20 := by
  rw [countSome, volCol, colOf, List.countP_map, ← countP_range_ge 20 p.length]
  apply List.countP_congr
  intro i hi
  have hin : i < p.length := List.mem_range.mp hi
  by_cases h20 : 20 ≤ i
  · simp [Function.comp, volAt_isSome p i h20 hin, h20]
  · simp [Function.comp, volAt_none_of_lt p i (by omega), h20]

/-! ### C5 and C6 -/

theorem rsiAt_14_none_iff (p : List ℚ) (h15 : 15 ≤ p.length) :
    rsiAt p 14 = none ↔
      (avgGainAt p 14 = some 0 ∧ avgLossAt p 14 = some 0) := by
  obtain ⟨g, hg⟩ := Option.isSome_iff_exists.mp
    (avgGainAt_isSome p 14 (by omega) (by omega))
  obtain ⟨l, hl⟩ := Option.isSome_iff_exists.mp
    (avgLossAt_isSome p 14 (by omega) (by omega))
  rw [rsiAt, hg, hl]
  by_cases hl0 : l = 0
  · by_cases hg0 : g = 0
    · simp [hl0, hg0, hg, hl]
    · simp [hl0, hg0, hg, hl]
  · simp [hl0, hg, hl]

/-- C5 (amended): missing prefixes of the indicator columns computed by
`TechnicalAnalysisAgent.execute` on a positive price series.  `sma20` and
`sma50` miss exactly their first 19 and 49 values, but `rsi14` misses its
first 14 values (not 13) and `volatility20` its first 20 (not 19),
because `diff()` / `pct_change()` put a NaN in front of the rolled
column and pandas' `min_periods` counts it.  For length < 20, `sma20`
and `volatility20` are entirely missing; for any length, exactly
`length - 19` values of `sma20` and `length - 20` of `volatility20` are
present (truncated subtraction); `rsi14` at index 14 is missing only in
the zero-gain-and-zero-loss case. -/
theorem indicator_missing_prefixes (p : List ℚ) (i : Nat)
    (hpos : ∀ x ∈ p, 0 < x) :
    (i < 19 → sma20At p i = none) ∧
    (i < 49 → sma50At p i = none) ∧
    (i < 14 → rsiAt p i = none) ∧
    (i < 20 → volAt p i = none) ∧
    (p.length < 20 → sma20At p i = none ∧ volAt p i = none) ∧
    (countSome (sma20Col p) = p.length - 19 ∧
      countSome (volCol p) = p.length - 20) ∧
    (15 ≤ p.length →
      (rsiAt p 14 = none ↔
        (avgGainAt p 14 = some 0 ∧ avgLossAt p 14 = some 0))) := by
  refine ⟨sma20At_none_of_lt p i, sma50At_none_of_lt p i,
    rsiAt_none_of_lt p i, volAt_none_of_lt p i, ?_,
    ⟨countSome_sma20Col p, countSome_volCol p⟩, rsiAt_14_none_iff p⟩
  intro hlen
  by_cases hi : i < p.length
  · exact ⟨sma20At_none_of_lt p i (by omega), volAt_none_of_lt p i (by omega)⟩
  · refine ⟨rollingMeanAt_out_of_range 20 _ i (Or.inr (by simp; omega)), ?_⟩
    exact rollingVarAt_out_of_range 20 _ i
      (Or.inr (by rw [pctChange_length]; omega))

unseal Rat.mul Rat.inv Rat.add Rat.sub in
/-- C5 witness: a concrete positive 21-point series exercising the
amended counts. -/
theorem indicator_missing_prefixes_witness :
    sma20At [(1 : ℚ), 2, 3, 4, 5, 6, 7, 8, 9, 10, 11, 12, 13, 14, 15, 16,
      17, 18, 19, 20, 21] 18 = none ∧
    countSome (volCol [(1 : ℚ), 2, 3, 4, 5, 6, 7, 8, 9, 10, 11, 12, 13, 14,
      15, 16, 17, 18, 19, 20, 21]) = 1 := by
  have h := indicator_missing_prefixes
    [(1 : ℚ), 2, 3, 4, 5, 6, 7, 8, 9, 10, 11, 12, 13, 14, 15, 16, 17, 18,
      19, 20, 21] 18 (by decide)
  exact ⟨h.1 (by decide), h.2.2.2.2.2.1.2⟩

unseal Rat.mul Rat.inv Rat.add Rat.sub in
/-- C5 counterexample: on prices 1..21 the claim's counts fail: `rsi14`
at index 13 is still missing (the claim says only the first 13 are
missing), `volatility20` at index 19 is still missing (the claim says
only the first 19 are missing), and only `21 - 20 = 1` volatility value
is present, not `21 - 19 = 2`. -/
theorem indicator_missing_prefixes_counterexample :
    rsiAt [(1 : ℚ), 2, 3, 4, 5, 6, 7, 8, 9, 10, 11, 12, 13, 14, 15, 16, 17,
        18, 19, 20, 21] 13 = none ∧
    volAt [(1 : ℚ), 2, 3, 4, 5, 6, 7, 8, 9, 10, 11, 12, 13, 14, 15, 16, 17,
        18, 19, 20, 21] 19 = none ∧
    countSome (volCol [(1 : ℚ), 2, 3, 4, 5, 6, 7, 8, 9, 10, 11, 12, 13, 14,
        15, 16, 17, 18, 19, 20, 21]) ≠
      [(1 : ℚ), 2, 3, 4, 5, 6, 7, 8, 9, 10, 11, 12, 13, 14, 15, 16, 17, 18,
        19, 20, 21].length - 19 := by
  refine ⟨?_, ?_, ?_⟩ <;> decide

/-! #### C6: RSI bounds and saturation -/

theorem mem_of_mem_windowAt {w i : Nat} {xs : List (Option ℚ)}
    {z : Option ℚ} (hz : z ∈ windowAt w i xs) : z ∈ xs :=
  List.mem_of_mem_drop (List.mem_of_mem_take hz)

theorem rollingMeanAt_nonneg {w i : Nat} {xs : List (Option ℚ)} {m : ℚ}
    (hnn : ∀ z ∈ xs, ∀ v, z = some v → 0 ≤ v)
    (h : rollingMeanAt w xs i = some m) : 0 ≤ m := by
  rw [rollingMeanAt] at h
  split_ifs at h with h1 h2
  · have hm : m = (((windowAt w i xs).filterMap id).sum) / w := by
      injection h with h; exact h.symm
    rw [hm]
    apply div_nonneg
    · apply List.sum_nonneg
      intro v hv
      obtain ⟨z, hz, hzv⟩ := List.mem_filterMap.mp hv
      exact hnn z (mem_of_mem_windowAt hz) v hzv
    · positivity

theorem gainCol_vals_nonneg (p : List ℚ) :
    ∀ z ∈ gainCol p, ∀ v, z = some v → 0 ≤ v := by
  intro z hz v hv
  obtain ⟨d0, _, hd0⟩ := List.mem_map.mp hz
  cases d0 with
  | none => rw [← hd0] at hv; simp at hv
  | some d =>
    rw [← hd0] at hv
    simp at hv
    rw [← hv]
    exact le_max_right d 0

theorem lossCol_vals_nonneg (p : List ℚ) :
    ∀ z ∈ lossCol p, ∀ v, z = some v → 0 ≤ v := by
  intro z hz v hv
  obtain ⟨d0, _, hd0⟩ := List.mem_map.mp hz
  cases d0 with
  | none => rw [← hd0] at hv; simp at hv
  | some d =>
    rw [← hd0] at hv
    simp at hv
    rw [← hv]
    exact le_max_right (-d) 0

/-- C6: whenever `rsi` as computed by `TechnicalAnalysisAgent.rsi` is
defined its value lies in [0, 100]; when the 14-window average loss is 0
and the average gain is positive it saturates to exactly 100; when both
averages are 0 it is missing. -/
theorem rsi_in_range_and_saturates (p : List ℚ) (i : Nat) :
    (∀ x, rsiAt p i = some x → 0 ≤ x ∧ x ≤ 100) ∧
    (∀ g, avgLossAt p i = some 0 → avgGainAt p i = some g → 0 < g →
      rsiAt p i = some 100) ∧
    (avgGainAt p i = some 0 → avgLossAt p i = some 0 → rsiAt p i = none) := by
  refine ⟨?_, ?_, ?_⟩
  · intro x hx
    cases hg : avgGainAt p i with
    | none => simp [rsiAt, hg] at hx
    | some g =>
      cases hl : avgLossAt p i with
      | none => simp [rsiAt, hg, hl] at hx
      | some l =>
        have hgn : 0 ≤ g := rollingMeanAt_nonneg (gainCol_vals_nonneg p) hg
        have hln : 0 ≤ l := rollingMeanAt_nonneg (lossCol_vals_nonneg p) hl
        simp only [rsiAt, hg, hl] at hx
        by_cases hl0 : l = 0
        · by_cases hg0 : g = 0
          · simp [hl0, hg0] at hx
          · rw [if_pos hl0, if_neg hg0] at hx
            injection hx with hx
            rw [← hx]; norm_num
        · rw [if_neg hl0] at hx
          injection hx with hx
          have hlp : 0 < l := lt_of_le_of_ne hln (Ne.symm hl0)
          have hrs : 0 ≤ g / l := div_nonneg hgn (le_of_lt hlp)
          have h1 : (0 : ℚ) < 1 + g / l := by linarith
          have hle : (100 : ℚ) / (1 + g / l) ≤ 100 :=
            div_le_self (by norm_num) (by linarith)
          have hpos : (0 : ℚ) < 100 / (1 + g / l) := div_pos (by norm_num) h1
          constructor <;> [linarith [hx]; linarith [hx]]
  · intro g hl hg hgpos
    simp only [rsiAt, hg, hl]
    simp [hgpos.ne']
  · intro hg hl
    simp only [rsiAt, hg, hl]
    simp

unseal Rat.mul Rat.inv Rat.add Rat.sub in
/-- C6 witness: on the strictly increasing series 1..15 the average loss
at index 14 is 0 and the average gain is 1, so `rsi` is exactly 100
(which is in [0, 100]). -/
theorem rsi_in_range_witness :
    rsiAt [(1 : ℚ), 2, 3, 4, 5, 6, 7, 8, 9, 10, 11, 12, 13, 14, 15] 14 =
      some 100 :=
  (rsi_in_range_and_saturates
      [(1 : ℚ), 2, 3, 4, 5, 6, 7, 8, 9, 10, 11, 12, 13, 14, 15] 14).2.1 1
    (by decide) (by decide) (by decide)

/-! ### Defensive JSON extraction — `agents/strategy.py`, `safe_json_parse`

Python strings are `List Char` here.  Braces and quotes are written via
`Char.ofNat` (123/125/34/92) throughout. -/

def lbrace : Char := Char.ofNat 123

def rbrace : Char := Char.ofNat 125

def quoteC : Char := Char.ofNat 34

def backslashC : Char := Char.ofNat 92

/-- Model of `re.search` with the DOTALL pattern of `safe_json_parse`: the leftmost-greedy match
runs from the first left brace to the last right brace of the whole text
(DOTALL makes `.` cross newlines); there is a match iff some right brace
occurs after the first left brace. -/
def extractBraces (s : Str) : Option Str :=
  match s.findIdx? (· == lbrace), s.reverse.findIdx? (· == rbrace) with
  | some i, some jr =>
    let j := s.length - 1 - jr
    if i < j then some ((s.drop i).take (j - i + 1)) else none
  | _, _ => none

/-- JSON values as decoded by `json.loads`. -/
inductive JVal where
  | jnull : JVal
  | jbool : Bool → JVal
  | jnum : ℚ → JVal
  | jstr : Str → JVal
  | jarr : List JVal → JVal
  | jobj : List (Str × JVal) → JVal

mutual

def JVal.beq : JVal → JVal → Bool
  | .jnull, .jnull => true
  | .jbool a, .jbool b => a == b
  | .jnum a, .jnum b => a == b
  | .jstr a, .jstr b => a == b
  | .jarr a, .jarr b => JVal.beqList a b
  | .jobj a, .jobj b => JVal.beqPairs a b
  | _, _ => false

def JVal.beqList : List JVal → List JVal → Bool
  | [], [] => true
  | x :: xs, y :: ys => JVal.beq x y && JVal.beqList xs ys
  | _, _ => false

def JVal.beqPairs : List (Str × JVal) → List (Str × JVal) → Bool
  | [], [] => true
  | (k1, v1) :: xs, (k2, v2) :: ys =>
    k1 == k2 && JVal.beq v1 v2 && JVal.beqPairs xs ys
  | _, _ => false

end

mutual

theorem JVal.eq_of_beq : ∀ {a b : JVal}, JVal.beq a b = true → a = b
  | .jnull, .jnull, _ => rfl
  | .jbool a, .jbool b, h => by simp [JVal.beq] at h; rw [h]
  | .jnum a, .jnum b, h => by simp [JVal.beq] at h; rw [h]
  | .jstr a, .jstr b, h => by simp [JVal.beq] at h; rw [h]
  | .jarr a, .jarr b, h => by
    simp only [JVal.beq] at h
    rw [JVal.eqList_of_beq h]
  | .jobj a, .jobj b, h => by
    simp only [JVal.beq] at h
    rw [JVal.eqPairs_of_beq h]
  | .jnull, .jbool _, h => by simp [JVal.beq] at h
  | .jnull, .jnum _, h => by simp [JVal.beq] at h
  | .jnull, .jstr _, h => by simp [JVal.beq] at h
  | .jnull, .jarr _, h => by simp [JVal.beq] at h
  | .jnull, .jobj _, h => by simp [JVal.beq] at h
  | .jbool _, .jnull, h => by simp [JVal.beq] at h
  | .jbool _, .jnum _, h => by simp [JVal.beq] at h
  | .jbool _, .jstr _, h => by simp [JVal.beq] at h
  | .jbool _, .jarr _, h => by simp [JVal.beq] at h
  | .jbool _, .jobj _, h => by simp [JVal.beq] at h
  | .jnum _, .jnull, h => by simp [JVal.beq] at h
  | .jnum _, .jbool _, h => by simp [JVal.beq] at h
  | .jnum _, .jstr _, h => by simp [JVal.beq] at h
  | .jnum _, .jarr _, h => by simp [JVal.beq] at h
  | .jnum _, .jobj _, h => by simp [JVal.beq] at h
  | .jstr _, .jnull, h => by simp [JVal.beq] at h
  | .jstr _, .jbool _, h => by simp [JVal.beq] at h
  | .jstr _, .jnum _, h => by simp [JVal.beq] at h
  | .jstr _, .jarr _, h => by simp [JVal.beq] at h
  | .jstr _, .jobj _, h => by simp [JVal.beq] at h
  | .jarr _, .jnull, h => by simp [JVal.beq] at h
  | .jarr _, .jbool _, h => by simp [JVal.beq] at h
  | .jarr _, .jnum _, h => by simp [JVal.beq] at h
  | .jarr _, .jstr _, h => by simp [JVal.beq] at h
  | .jarr _, .jobj _, h => by simp [JVal.beq] at h
  | .jobj _, .jnull, h => by simp [JVal.beq] at h
  | .jobj _, .jbool _, h => by simp [JVal.beq] at h
  | .jobj _, .jnum _, h => by simp [JVal.beq] at h
  | .jobj _, .jstr _, h => by simp [JVal.beq] at h
  | .jobj _, .jarr _, h => by simp [JVal.beq] at h

theorem JVal.eqList_of_beq :
    ∀ {a b : List JVal}, JVal.beqList a b = true → a = b
  | [], [], _ => rfl
  | x :: xs, y :: ys, h => by
    simp only [JVal.beqList, Bool.and_eq_true] at h
    rw [JVal.eq_of_beq h.1, JVal.eqList_of_beq h.2]
  | [], _ :: _, h => by simp [JVal.beqList] at h
  | _ :: _, [], h => by simp [JVal.beqList] at h

theorem JVal.eqPairs_of_beq :
    ∀ {a b : List (Str × JVal)}, JVal.beqPairs a b = true → a = b
  | [], [], _ => rfl
  | (k1, v1) :: xs, (k2, v2) :: ys, h => by
    simp only [JVal.beqPairs, Bool.and_eq_true] at h
    obtain ⟨⟨hk, hv⟩, ht⟩ := h
    have hk2 : k1 = k2 := by simpa using hk
    rw [hk2, JVal.eq_of_beq hv, JVal.eqPairs_of_beq ht]
  | [], _ :: _, h => by simp [JVal.beqPairs] at h
  | _ :: _, [], h => by simp [JVal.beqPairs] at h

end

mutual

theorem JVal.beq_refl : ∀ (a : JVal), JVal.beq a a = true
  | .jnull => rfl
  | .jbool a => by simp [JVal.beq]
  | .jnum a => by simp [JVal.beq]
  | .jstr a => by simp [JVal.beq]
  | .jarr a => by simp only [JVal.beq]; exact JVal.beqList_refl a
  | .jobj a => by simp only [JVal.beq]; exact JVal.beqPairs_refl a

theorem JVal.beqList_refl : ∀ (a : List JVal), JVal.beqList a a = true
  | [] => rfl
  | x :: xs => by
    simp only [JVal.beqList, Bool.and_eq_true]
    exact ⟨JVal.beq_refl x, JVal.beqList_refl xs⟩

theorem JVal.beqPairs_refl :
    ∀ (a : List (Str × JVal)), JVal.beqPairs a a = true
  | [] => rfl
  | (k, v) :: xs => by
    simp only [JVal.beqPairs, Bool.and_eq_true]
    exact ⟨⟨by simp, JVal.beq_refl v⟩, JVal.beqPairs_refl xs⟩

end

instance : DecidableEq JVal := fun a b =>
  if h : JVal.beq a b = true then isTrue (JVal.eq_of_beq h)
  else isFalse (fun he => h (by rw [he]; exact JVal.beq_refl b))

def isJsonWs (c : Char) : Bool :=
  c == ' ' || c == '\t' || c == '\n' || c == '\r'

def skipWs (s : Str) : Str := s.dropWhile isJsonWs

def unescape (c : Char) : Option Char :=
  if c = quoteC then some quoteC
  else if c = backslashC then some backslashC
  else if c = '/' then some '/'
  else if c = 'n' then some '\n'
  else if c = 't' then some '\t'
  else if c = 'r' then some '\r'
  else if c = 'b' then some (Char.ofNat 8)
  else if c = 'f' then some (Char.ofNat 12)
  else none

def hexVal (c : Char) : Option Nat :=
  if 48 ≤ c.toNat ∧ c.toNat ≤ 57 then some (c.toNat - 48)
  else if 97 ≤ c.toNat ∧ c.toNat ≤ 102 then some (c.toNat - 87)
  else if 65 ≤ c.toNat ∧ c.toNat ≤ 70 then some (c.toNat - 55)
  else none

/-- Body of a JSON string (after the opening quote): returns the decoded
characters and the remainder after the closing quote. -/
def pStrBody : Str → Option (Str × Str)
  | [] => none
  | c :: rest =>
    if c = quoteC then some ([], rest)
    else if c = backslashC then
      match rest with
      | [] => none
      | e :: rest2 =>
        if e = 'u' then
          match rest2 with
          | h1 :: h2 :: h3 :: h4 :: rest3 =>
            match hexVal h1, hexVal h2, hexVal h3, hexVal h4 with
            | some a, some b, some c2, some d =>
              (pStrBody rest3).map (fun r =>
                (Char.ofNat (((a * 16 + b) * 16 + c2) * 16 + d) :: r.1, r.2))
            | _, _, _, _ => none
          | _ => none
        else
          match unescape e with
          | some c2 => (pStrBody rest2).map (fun r => (c2 :: r.1, r.2))
          | none => none
    else if c.toNat < 32 then none
    else (pStrBody rest).map (fun r => (c :: r.1, r.2))

def digitsVal (ds : Str) : Nat :=
  ds.foldl (fun acc c => acc * 10 + (c.toNat - 48)) 0

def pFracPart (s : Str) : Option (ℚ × Str) :=
  match s with
  | c :: r =>
    if c = '.' then
      let p := r.span Char.isDigit
      if p.1 = [] then none
      else some ((digitsVal p.1 : ℚ) / (10 : ℚ) ^ p.1.length, p.2)
    else some (0, s)
  | [] => some (0, [])

def pExpPart (s : Str) : Option (Int × Str) :=
  match s with
  | c :: r =>
    if c = 'e' ∨ c = 'E' then
      let sp : Bool × Str :=
        match r with
        | c2 :: r3 =>
          if c2 = '+' then (false, r3)
          else if c2 = '-' then (true, r3)
          else (false, r)
        | [] => (false, r)
      let p := sp.2.span Char.isDigit
      if p.1 = [] then none
      else
        some ((if sp.1 then -(digitsVal p.1 : Int) else (digitsVal p.1 : Int)),
          p.2)
    else some (0, s)
  | [] => some (0, [])

/-- JSON number: `-? (0 | [1-9][0-9]*) (. [0-9]+)? ([eE][+-]?[0-9]+)?`. -/
def pNum (s : Str) : Option (ℚ × Str) :=
  let sp : Bool × Str :=
    match s with
    | c :: r => if c = '-' then (true, r) else (false, s)
    | [] => (false, s)
  let ip := sp.2.span Char.isDigit
  if ip.1 = [] then none
  else if 1 < ip.1.length ∧ ip.1.head? = some '0' then none
  else
    match pFracPart ip.2 with
    | none => none
    | some (f, s3) =>
      match pExpPart s3 with
      | none => none
      | some (e, s4) =>
        let mag := ((digitsVal ip.1 : ℚ) + f) * (10 : ℚ) ^ e
        some ((if sp.1 then -mag else mag), s4)

mutual

def pVal : Nat → Str → Option (JVal × Str)
  | 0, _ => none
  | f + 1, s =>
    match skipWs s with
    | [] => none
    | c :: r =>
      if c = lbrace then pObjRest f r
      else if c = '[' then pArrRest f r
      else if c = quoteC then (pStrBody r).map (fun p => (JVal.jstr p.1, p.2))
      else
        match c :: r with
        | 't' :: 'r' :: 'u' :: 'e' :: r2 => some (JVal.jbool true, r2)
        | 'f' :: 'a' :: 'l' :: 's' :: 'e' :: r2 => some (JVal.jbool false, r2)
        | 'n' :: 'u' :: 'l' :: 'l' :: r2 => some (JVal.jnull, r2)
        | s2 => (pNum s2).map (fun p => (JVal.jnum p.1, p.2))

def pObjRest : Nat → Str → Option (JVal × Str)
  | 0, _ => none
  | f + 1, s =>
    match skipWs s with
    | c :: r =>
      if c = rbrace then some (JVal.jobj [], r)
      else
        match pMembers f (c :: r) with
        | none => none
        | some (l, r2) => some (JVal.jobj l, r2)
    | [] => none

def pMembers : Nat → Str → Option (List (Str × JVal) × Str)
  | 0, _ => none
  | f + 1, s =>
    match skipWs s with
    | c :: r =>
      if c = quoteC then
        match pStrBody r with
        | none => none
        | some (k, r2) =>
          match skipWs r2 with
          | c2 :: r3 =>
            if c2 = ':' then
              match pVal f r3 with
              | none => none
              | some (v, r4) =>
                match skipWs r4 with
                | c3 :: r5 =>
                  if c3 = ',' then
                    (pMembers f r5).map (fun p => ((k, v) :: p.1, p.2))
                  else if c3 = rbrace then some ([(k, v)], r5)
                  else none
                | [] => none
            else none
          | [] => none
      else none
    | [] => none

def pArrRest : Nat → Str → Option (JVal × Str)
  | 0, _ => none
  | f + 1, s =>
    match skipWs s with
    | c :: r =>
      if c = ']' then some (JVal.jarr [], r)
      else
        match pElems f (c :: r) with
        | none => none
        | some (l, r2) => some (JVal.jarr l, r2)
    | [] => none

def pElems : Nat → Str → Option (List JVal × Str)
  | 0, _ => none
  | f + 1, s =>
    match pVal f s with
    | none => none
    | some (v, r) =>
      match skipWs r with
      | c :: r2 =>
        if c = ',' then (pElems f r2).map (fun p => (v :: p.1, p.2))
        else if c = ']' then some ([v], r2)
        else none
      | [] => none

end

/-- Model of `json.loads`: parse one value and require only whitespace after it. -/
def jsonParse (s : Str) : Option JVal :=
  match pVal (4 * s.length + 8) s with
  | some (v, rest) => if skipWs rest = [] then some v else none
  | none => none

/-- The fixed fallback Recommendation of `safe_json_parse`. -/
def fallbackRec : JVal :=
  JVal.jobj
    [(("short_term").data, JVal.jstr (("Hold").data)),
     (("long_term").data, JVal.jstr (("Hold").data)),
     (("confidence").data, JVal.jnum 0),
     (("reason").data, JVal.jstr (("LLM output parsing failed").data))]

/-- Embeds `safe_json_parse` from `agents/strategy.py`: regex-extract the brace
span, `json.loads` it, and on any failure (no match, or decode error)
return the fixed fallback object.  No field validation is performed. -/
def safe_json_parse (text : Str) : JVal :=
  match extractBraces text with
  | none => fallbackRec
  | some sub =>
    match jsonParse sub with
    | some v => v
    | none => fallbackRec

/-- Python `dict` lookup on a decoded JSON object (`json.loads` keeps the
last value of a duplicated key). -/
def objGet (v : JVal) (k : Str) : Option JVal :=
  match v with
  | JVal.jobj l => (l.reverse.find? (fun p => p.1 == k)).map (fun p => p.2)
  | _ => none

/-- Whether a decoded object carries all four Recommendation fields. -/
def hasRecFields (v : JVal) : Bool :=
  (objGet v (("short_term").data)).isSome &&
  (objGet v (("long_term").data)).isSome &&
  (objGet v (("confidence").data)).isSome &&
  (objGet v (("reason").data)).isSome

unseal Rat.mul Rat.inv Rat.add Rat.sub in
/-- C2 counterexample: `safe_json_parse` does NOT fall back on an object
missing the required Recommendation fields — the well-formed but
field-free object `\x7b"foo": 1\x7d` is returned as-is, not replaced by
the fallback, contradicting the claim's "missing required Recommendation
fields" clause. -/
theorem safe_json_parse_counterexample :
    safe_json_parse (("\x7b\"foo\": 1\x7d").data) =
        JVal.jobj [(("foo").data, JVal.jnum 1)] ∧
      hasRecFields (safe_json_parse (("\x7b\"foo\": 1\x7d").data)) = false ∧
      safe_json_parse (("\x7b\"foo\": 1\x7d").data) ≠ fallbackRec := by
  refine ⟨by decide, by decide, by decide⟩

unseal Rat.mul Rat.inv Rat.add Rat.sub in
/-- C2 (amended): `safe_json_parse` extracts the span from the first left
brace to the last right brace (greedy, DOTALL) and decodes it; it returns
the fixed fallback when that span is absent or malformed, but a
successfully decoded object is returned as-is even when Recommendation
fields are missing; on the spec's noise-wrapped example it returns
exactly the embedded object. -/
theorem safe_json_parse_contract :
    (∀ t, extractBraces t = none → safe_json_parse t = fallbackRec) ∧
    (∀ t s, extractBraces t = some s → jsonParse s = none →
      safe_json_parse t = fallbackRec) ∧
    (∀ t s v, extractBraces t = some s → jsonParse s = some v →
      safe_json_parse t = v) ∧
    safe_json_parse
        (("noise \x7b\"short_term\":\"Buy\",\"long_term\":\"Hold\",\"confidence\":0.8,\"reason\":\"x\"\x7d trailing noise").data) =
      JVal.jobj
        [(("short_term").data, JVal.jstr (("Buy").data)),
         (("long_term").data, JVal.jstr (("Hold").data)),
         (("confidence").data, JVal.jnum (4 / 5)),
         (("reason").data, JVal.jstr (("x").data))] := by
  refine ⟨?_, ?_, ?_, ?_⟩
  · intro t ht; simp only [safe_json_parse, ht]
  · intro t s ht hs; simp only [safe_json_parse, ht, hs]
  · intro t s v ht hs; simp only [safe_json_parse, ht, hs]
  · decide

/-- C2 witness: a braceless text falls back. -/
theorem safe_json_parse_contract_witness :
    safe_json_parse (("no json here").data) = fallbackRec :=
  safe_json_parse_contract.1 (("no json here").data) rfl

/-! ### Retry loop — `agents/strategy.py`, `StrategyAgent.execute`
(lines 89–119)

The HTTP call to the local LLM is the oracle `Nat → Except Str Str`
(attempt index to either the response text or an exception).  `for
attempt in range(3)` with `time.sleep(5)` after each failed attempt. -/

def llmAttempts (oracle : Nat → Except Str Str) :
    List Nat → Option Str × List Nat
  | [] => (none, [])
  | a :: rest =>
    match oracle a with
    | Except.ok t => (some t, [])
    | Except.error _ =>
      let p := llmAttempts oracle rest
      (p.1, 5 :: p.2)

/-- The per-ticker body of the retry logic in `StrategyAgent.execute`:
the parsed strategy and the list of sleep durations performed.  When all
attempts fail, the code takes `safe_json_parse("")`. -/
def strategyCallLLM (oracle : Nat → Except Str Str) : JVal × List Nat :=
  let p := llmAttempts oracle [0, 1, 2]
  match p.1 with
  | none => (safe_json_parse [], p.2)
  | some raw => (safe_json_parse raw, p.2)

theorem llmAttempts_congr (o1 o2 : Nat → Except Str Str) (l : List Nat)
    (h : ∀ i ∈ l, o1 i = o2 i) : llmAttempts o1 l = llmAttempts o2 l := by
  induction l with
  | nil => rfl
  | cons a rest ih =>
    have ha : o1 a = o2 a := h a (by simp)
    have ht : llmAttempts o1 rest = llmAttempts o2 rest :=
      ih (fun i hi => h i (List.mem_cons_of_mem a hi))
    simp only [llmAttempts, ha, ht]

theorem llmAttempts_sleeps (oracle : Nat → Except Str Str) (l : List Nat) :
    ∀ d ∈ (llmAttempts oracle l).2, d = 5 := by
  induction l with
  | nil => intro d hd; simp [llmAttempts] at hd
  | cons a rest ih =>
    intro d hd
    simp only [llmAttempts] at hd
    cases ho : oracle a with
    | ok t => rw [ho] at hd; simp at hd
    | error e =>
      rw [ho] at hd
      simp only [List.mem_cons] at hd
      rcases hd with hd | hd
      · exact hd
      · exact ih d hd

theorem llmAttempts_all_fail (oracle : Nat → Except Str Str) (l : List Nat)
    (h : ∀ i ∈ l, ∃ e, oracle i = Except.error e) :
    llmAttempts oracle l = (none, l.map (fun _ => 5)) := by
  induction l with
  | nil => rfl
  | cons a rest ih =>
    obtain ⟨e, he⟩ := h a (by simp)
    have ht := ih (fun i hi => h i (List.mem_cons_of_mem a hi))
    simp only [llmAttempts, he, ht, List.map_cons]

/-- C3: the retry loop of `StrategyAgent.execute` makes at most 3 total
attempts (the result only depends on the oracle at attempts 0, 1, 2);
every pause between attempts is exactly 5 time units; and when all 3
attempts fail it performs 3 sleeps of 5 and returns the fixed fallback
Recommendation — it never propagates the invocation error. -/
theorem strategy_retry_contract (oracle : Nat → Except Str Str) (d0 : Str) :
    ((∀ i < 3, ∃ e, oracle i = Except.error e) →
      strategyCallLLM oracle = (fallbackRec, [5, 5, 5])) ∧
    (∀ d ∈ (strategyCallLLM oracle).2, d = 5) ∧
    strategyCallLLM oracle =
      strategyCallLLM (fun i => if i < 3 then oracle i else Except.error d0) := by
  refine ⟨?_, ?_, ?_⟩
  · intro h
    have hl := llmAttempts_all_fail oracle [0, 1, 2]
      (by intro i hi; exact h i (by simp at hi; omega))
    simp only [strategyCallLLM, hl]
    rfl
  · intro d hd
    simp only [strategyCallLLM] at hd
    cases hp : (llmAttempts oracle [0, 1, 2]).1 <;> rw [hp] at hd <;>
      exact llmAttempts_sleeps oracle [0, 1, 2] d hd
  · have hcongr := llmAttempts_congr oracle
      (fun i => if i < 3 then oracle i else Except.error d0) [0, 1, 2]
      (by
        intro i hi
        simp at hi
        have h3 : i < 3 := by omega
        simp [h3])
    simp only [strategyCallLLM, hcongr]

/-- C3 witness: an oracle that always fails gives the fallback and three
5-unit sleeps. -/
theorem strategy_retry_witness :
    strategyCallLLM (fun _ => Except.error (("connection refused").data)) =
      (fallbackRec, [5, 5, 5]) :=
  (strategy_retry_contract
      (fun _ => Except.error (("connection refused").data)) []).1
    (fun i _ => ⟨(("connection refused").data), rfl⟩)

/-! ### Report rendering — `agents/report.py`, `ReportAgent.execute` -/

/-- Python `float(str)`: optional surrounding whitespace, optional sign,
decimal digits around an optional point (at least one digit), optional
exponent.  (`inf` / `nan` spellings are outside the model.) -/
def parsePyFloat (s : Str) : Option ℚ :=
  let t0 := s.dropWhile isJsonWs
  let t := ((t0.reverse.dropWhile isJsonWs)).reverse
  let sp : Bool × Str :=
    match t with
    | c :: r =>
      if c = '-' then (true, r) else if c = '+' then (false, r) else (false, t)
    | [] => (false, t)
  let ip := sp.2.span Char.isDigit
  let fr : Str × Str :=
    match ip.2 with
    | c :: r => if c = '.' then r.span Char.isDigit else ([], ip.2)
    | [] => ([], ip.2)
  if ip.1 = [] ∧ fr.1 = [] then none
  else
    match pExpPart fr.2 with
    | none => none
    | some (e, rest) =>
      if rest = [] then
        let q0 : ℚ :=
          (digitsVal ip.1 : ℚ) + (digitsVal fr.1 : ℚ) / (10 : ℚ) ^ fr.1.length
        some ((if sp.1 then -q0 else q0) * (10 : ℚ) ^ e)
      else none

/-- Python `float(x)` on a decoded JSON value: numbers pass through,
strings are parsed, booleans map to 0/1, anything else raises
(TypeError), modelled as `none`. -/
def pyFloat : JVal → Option ℚ
  | JVal.jnum q => some q
  | JVal.jstr s => parsePyFloat s
  | JVal.jbool b => some (if b then 1 else 0)
  | _ => none

def intToStr (i : Int) : Str :=
  if i < 0 then '-' :: Nat.toDigits 10 i.natAbs else Nat.toDigits 10 i.natAbs

/-- Rendering of a numeric value into prompt/report text (model of
Python's float `str`; no claim depends on its exact spelling). -/
def qToStr (q : ℚ) : Str :=
  intToStr q.num ++ ('/' :: Nat.toDigits 10 q.den)

/-- Python `str()` of a decoded JSON value as interpolated into the
report f-string. -/
def pyStr : JVal → Str
  | JVal.jstr s => s
  | JVal.jbool b => if b then ("True").data else ("False").data
  | JVal.jnull => ("None").data
  | JVal.jnum q => qToStr q
  | JVal.jarr _ => ("<list>").data
  | JVal.jobj _ => ("<dict>").data

/-- Round half to even (the rounding of `format(x, '.2f')` at the decimal
level; binary-double representation error is outside the model). -/
def rhe (x : ℚ) : ℤ :=
  if x - ⌊x⌋ < 1 / 2 then ⌊x⌋
  else if 1 / 2 < x - ⌊x⌋ then ⌊x⌋ + 1
  else if Even ⌊x⌋ then ⌊x⌋ else ⌊x⌋ + 1

def round2 (q : ℚ) : ℚ := ((rhe (q * 100) : ℤ) : ℚ) / 100

def pad2 (n : Nat) : Str :=
  [Char.ofNat (48 + n % 100 / 10), Char.ofNat (48 + n % 100 % 10)]

/-- Digits of a nonnegative cent count as printed by `:.2f`. -/
def centsStr (n : Nat) : Str :=
  Nat.toDigits 10 (n / 100) ++ ('.' :: pad2 (n % 100))

/-- Python `f"..x:.2f.."` for a rational `x`. -/
def fmt2 (q : ℚ) : Str :=
  if q < 0 then '-' :: centsStr (rhe (-q * 100)).toNat
  else centsStr (rhe (q * 100)).toNat

def dashRule : Str := List.replicate 40 '-'

/-- The per-ticker block of the report f-string in `ReportAgent.execute`. -/
def renderedBlock (ticker stS ltS confS rsS : Str) : Str :=
  (("Ticker: ").data) ++ ticker ++ ['\n'] ++
  (("Short Term: ").data) ++ stS ++ ['\n'] ++
  (("Long Term: ").data) ++ ltS ++ ['\n'] ++
  (("Confidence: ").data) ++ confS ++ ['\n'] ++
  (("Reason: ").data) ++ rsS ++ ['\n'] ++
  dashRule ++ ['\n']

/-- One iteration of the report loop: the f-string evaluates
`s['short_term']`, `s['long_term']`, `float(s['confidence'])`,
`s['reason']` left to right; a missing key raises KeyError and a
non-coercible confidence raises ValueError/TypeError, aborting the
stage. -/
def renderBlock (ticker : Str) (s : JVal) : Except Str Str :=
  match objGet s (("short_term").data) with
  | none => Except.error (("KeyError: short_term").data)
  | some stv =>
    match objGet s (("long_term").data) with
    | none => Except.error (("KeyError: long_term").data)
    | some ltv =>
      match objGet s (("confidence").data) with
      | none => Except.error (("KeyError: confidence").data)
      | some cv =>
        match pyFloat cv with
        | none => Except.error (("ValueError: could not convert to float").data)
        | some q =>
          match objGet s (("reason").data) with
          | none => Except.error (("KeyError: reason").data)
          | some rv =>
            Except.ok
              (renderedBlock ticker (pyStr stv) (pyStr ltv) (fmt2 q) (pyStr rv))

def renderBlocks : List (Str × JVal) → Except Str Str
  | [] => Except.ok []
  | (tk, s) :: rest =>
    match renderBlock tk s with
    | Except.error e => Except.error e
    | Except.ok b =>
      match renderBlocks rest with
      | Except.error e => Except.error e
      | Except.ok bs => Except.ok (b ++ bs)

/-- Header of the report (`datetime.now()` is the `now` parameter). -/
def reportHeader (runId now : Str) : Str :=
  (("AGENTIC AI FINANCIAL ADVISOR REPORT\n").data) ++
  (("Run ID: ").data) ++ runId ++ ['\n'] ++
  (("Generated: ").data) ++ now ++ (("\n\n").data)

/-- The full report text built by `ReportAgent.execute`. -/
def renderReportText (runId now : Str) (strategies : List (Str × JVal)) :
    Except Str Str :=
  match renderBlocks strategies with
  | Except.error e => Except.error e
  | Except.ok bs => Except.ok (reportHeader runId now ++ bs)

/-! Modelled from the spec: the re-parse step of the §8 round-trip
property ("re-parsing the rendered block for one symbol recovers the
same short/long term calls and confidence").  The repository has no such
parser; this reads the fixed block layout back. -/

def splitAtNl : Str → Str × Str
  | [] => ([], [])
  | c :: r =>
    if c = '\n' then ([], r)
    else
      let p := splitAtNl r
      (c :: p.1, p.2)

def stripLead : Str → Str → Option Str
  | [], s => some s
  | p :: ps, c :: cs => if c = p then stripLead ps cs else none
  | _ :: _, [] => none

/-- Modelled from the spec: re-parse a rendered block, recovering the
short-term call, long-term call and confidence. -/
def parseBlock (b : Str) : Option (Str × Str × ℚ) :=
  let l1 := splitAtNl b
  match stripLead (("Ticker: ").data) l1.1 with
  | none => none
  | some _ =>
    let l2 := splitAtNl l1.2
    match stripLead (("Short Term: ").data) l2.1 with
    | none => none
    | some st =>
      let l3 := splitAtNl l2.2
      match stripLead (("Long Term: ").data) l3.1 with
      | none => none
      | some lt =>
        let l4 := splitAtNl l3.2
        match stripLead (("Confidence: ").data) l4.1 with
        | none => none
        | some cs =>
          match parsePyFloat cs with
          | none => none
          | some q => some (st, lt, q)

/-! ### Round-trip lemmas for the report block -/

unseal Rat.mul Rat.inv Rat.add Rat.sub in
theorem centsStr_roundtrip (n : Nat) (h : n ≤ 100) :
    parsePyFloat (centsStr n) = some ((n : ℚ) / 100) := by
  interval_cases n <;> decide

theorem centsStr_no_nl (n : Nat) (h : n ≤ 100) : ('\n') ∉ centsStr n := by
  interval_cases n <;> decide

theorem rhe_cases (x : ℚ) : rhe x = ⌊x⌋ ∨ rhe x = ⌊x⌋ + 1 := by
  unfold rhe
  split_ifs <;> simp

theorem rhe_nonneg {x : ℚ} (h : 0 ≤ x) : 0 ≤ rhe x := by
  have hf : 0 ≤ ⌊x⌋ := Int.floor_nonneg.mpr h
  rcases rhe_cases x with hr | hr <;> omega

theorem rhe_le_100 {x : ℚ} (h : x ≤ 100) : rhe x ≤ 100 := by
  have hf : ⌊x⌋ ≤ 100 := by
    have hq : (⌊x⌋ : ℚ) ≤ 100 := le_trans (Int.floor_le x) h
    exact_mod_cast hq
  have hfl : (⌊x⌋ : ℚ) ≤ x := Int.floor_le x
  rw [rhe]
  split_ifs with h1 h2 h3
  · exact hf
  · have hlt : (⌊x⌋ : ℚ) < 100 := by linarith
    have : ⌊x⌋ < 100 := by exact_mod_cast hlt
    omega
  · exact hf
  · have hhalf : (1 : ℚ) / 2 ≤ x - ⌊x⌋ := not_lt.mp h1
    have hlt : (⌊x⌋ : ℚ) < 100 := by linarith
    have : ⌊x⌋ < 100 := by exact_mod_cast hlt
    omega

theorem fmt2_eq_of_nonneg (q : ℚ) (h : 0 ≤ q) :
    fmt2 q = centsStr (rhe (q * 100)).toNat := by
  rw [fmt2, if_neg (not_lt.mpr h)]

theorem fmt2_roundtrip (q : ℚ) (h0 : 0 ≤ q) (h1 : q ≤ 1) :
    parsePyFloat (fmt2 q) = some (round2 q) := by
  have hx0 : 0 ≤ q * 100 := by positivity
  have hx1 : q * 100 ≤ 100 := by linarith
  have hn0 : 0 ≤ rhe (q * 100) := rhe_nonneg hx0
  have hn1 : rhe (q * 100) ≤ 100 := rhe_le_100 hx1
  have hnn : (rhe (q * 100)).toNat ≤ 100 := by omega
  rw [fmt2_eq_of_nonneg q h0, centsStr_roundtrip _ hnn, round2]
  have hcast : (((rhe (q * 100)).toNat : ℚ)) = ((rhe (q * 100) : ℤ) : ℚ) := by
    exact_mod_cast congrArg (fun z : ℤ => (z : ℚ)) (Int.toNat_of_nonneg hn0)
  rw [hcast]

theorem fmt2_no_nl (q : ℚ) (h0 : 0 ≤ q) (h1 : q ≤ 1) :
    ('\n') ∉ fmt2 q := by
  have hx0 : 0 ≤ q * 100 := by positivity
  have hx1 : q * 100 ≤ 100 := by linarith
  have hnn : (rhe (q * 100)).toNat ≤ 100 := by
    have := rhe_le_100 hx1
    omega
  rw [fmt2_eq_of_nonneg q h0]
  exact centsStr_no_nl _ hnn

theorem not_mem_append {c : Char} {a b : Str} (ha : c ∉ a) (hb : c ∉ b) :
    c ∉ a ++ b := fun h => (List.mem_append.mp h).elim ha hb

theorem splitAtNl_append (l r : Str) (h : ('\n') ∉ l) :
    splitAtNl (l ++ ('\n') :: r) = (l, r) := by
  induction l with
  | nil => simp [splitAtNl]
  | cons c cs ih =>
    have hc : c ≠ '\n' := fun hh => h (by simp [hh])
    have hcs : ('\n') ∉ cs := fun hh => h (by simp [hh])
    simp [splitAtNl, hc, ih hcs]

theorem stripLead_append (pre rest : Str) :
    stripLead pre (pre ++ rest) = some rest := by
  induction pre with
  | nil => rfl
  | cons p ps ih => simp [stripLead, ih]

theorem parseBlock_rendered (ticker stS ltS confS rsS : Str)
    (ht : ('\n') ∉ ticker) (hs : ('\n') ∉ stS) (hl : ('\n') ∉ ltS)
    (hc : ('\n') ∉ confS) :
    parseBlock (renderedBlock ticker stS ltS confS rsS) =
      (parsePyFloat confS).map (fun q => (stS, ltS, q)) := by
  have h1 : renderedBlock ticker stS ltS confS rsS =
      ((("Ticker: ").data ++ ticker)) ++ ('\n') ::
        (((("Short Term: ").data ++ stS)) ++ ('\n') ::
          (((("Long Term: ").data ++ ltS)) ++ ('\n') ::
            (((("Confidence: ").data ++ confS)) ++ ('\n') ::
              (((("Reason: ").data ++ rsS)) ++ ('\n') ::
                (dashRule ++ [('\n')]))))) := by
    simp [renderedBlock, List.append_assoc]
  rw [h1]
  simp only [parseBlock,
    splitAtNl_append _ _
      (@not_mem_append '\n' ((("Ticker: ").data)) ticker (by decide) ht),
    splitAtNl_append _ _
      (@not_mem_append '\n' ((("Short Term: ").data)) stS (by decide) hs),
    splitAtNl_append _ _
      (@not_mem_append '\n' ((("Long Term: ").data)) ltS (by decide) hl),
    splitAtNl_append _ _
      (@not_mem_append '\n' ((("Confidence: ").data)) confS (by decide) hc),
    stripLead_append]
  cases parsePyFloat confS <;> rfl

/-- C9: rendering the report block of `ReportAgent.execute` for a symbol
whose strategy object carries the four Recommendation fields with a
float-coercible confidence in [0, 1] (and no embedded newlines in the
rendered calls), and then re-parsing the rendered block, recovers the
same short-term and long-term calls and the confidence to 2-decimal
precision; the full single-symbol report is the header followed by that
block. -/
theorem report_block_roundtrip (ticker st lt : Str) (cv rv s : JVal) (q : ℚ)
    (hst : objGet s (("short_term").data) = some (JVal.jstr st))
    (hlt : objGet s (("long_term").data) = some (JVal.jstr lt))
    (hcv : objGet s (("confidence").data) = some cv)
    (hq : pyFloat cv = some q)
    (hrv : objGet s (("reason").data) = some rv)
    (hq0 : 0 ≤ q) (hq1 : q ≤ 1)
    (hnt : ('\n') ∉ ticker) (hnst : ('\n') ∉ st) (hnlt : ('\n') ∉ lt) :
    renderBlock ticker s =
        Except.ok (renderedBlock ticker st lt (fmt2 q) (pyStr rv)) ∧
      parseBlock (renderedBlock ticker st lt (fmt2 q) (pyStr rv)) =
        some (st, lt, round2 q) ∧
      (∀ runId now, renderReportText runId now [(ticker, s)] =
        Except.ok (reportHeader runId now ++
          renderedBlock ticker st lt (fmt2 q) (pyStr rv))) := by
  have hrb : renderBlock ticker s =
      Except.ok (renderedBlock ticker st lt (fmt2 q) (pyStr rv)) := by
    simp only [renderBlock, hst, hlt, hcv, hq, hrv]
    rfl
  refine ⟨hrb, ?_, ?_⟩
  · rw [parseBlock_rendered ticker st lt (fmt2 q) (pyStr rv) hnt hnst hnlt
      (fmt2_no_nl q hq0 hq1), fmt2_roundtrip q hq0 hq1]
    rfl
  · intro runId now
    simp only [renderReportText, renderBlocks, hrb, List.append_nil]

unseal Rat.mul Rat.inv Rat.add Rat.sub in
/-- C9 witness: a concrete strategy object with confidence 0.8. -/
theorem report_block_roundtrip_witness :
    parseBlock (renderedBlock (("AAPL").data) (("Buy").data) (("Hold").data)
        (fmt2 (4 / 5)) (pyStr (JVal.jstr (("ok").data)))) =
      some ((("Buy").data), (("Hold").data), round2 (4 / 5)) :=
  (report_block_roundtrip (("AAPL").data) (("Buy").data) (("Hold").data)
      (JVal.jnum (4 / 5)) (JVal.jstr (("ok").data))
      (JVal.jobj
        [(("short_term").data, JVal.jstr (("Buy").data)),
         (("long_term").data, JVal.jstr (("Hold").data)),
         (("confidence").data, JVal.jnum (4 / 5)),
         (("reason").data, JVal.jstr (("ok").data))])
      (4 / 5) (by decide) (by decide) (by decide) (by decide) (by decide)
      (by decide) (by decide) (by decide) (by decide) (by decide)).2.1

/-! ### Store, run context and pipeline — `orchestrator.py` and the
agent `execute` methods.

The SQLite connection is the `Store` value threaded through the stages;
a raised Python exception is the `Except.error` branch.  `conn.commit()`
keeps the final store, `conn.rollback()` restores the store that existed
when the connection was opened. -/

structure TechRow where
  date : Str
  close : Option ℚ
  sma20 : Option ℚ
  sma50 : Option ℚ
  rsi : Option ℚ
  volatility : Option ℚ
  ticker : Str
deriving DecidableEq

structure RiskRow where
  ticker : Str
  annualVolatility : Option ℚ
  maxDrawdown : Option ℚ
deriving DecidableEq

/-- One row of the wide `market_data` table (date plus one cell per
downloaded column). -/
structure MarketRow where
  date : Str
  cells : List (Str × Option ℚ)
deriving DecidableEq

structure Store where
  market_data : List MarketRow
  technical_analysis : List TechRow
  risk_analysis : List RiskRow
  report : List Str
deriving DecidableEq

/-- Values held in the loosely-typed `context` dict of `main.py`. -/
inductive CtxVal where
  | vstr : Str → CtxVal
  | vstrs : List Str → CtxVal
  | vstrat : List (Str × JVal) → CtxVal
deriving DecidableEq

abbrev Ctx := List (Str × CtxVal)

def ctxGet (ctx : Ctx) (k : Str) : Option CtxVal :=
  match ctx with
  | [] => none
  | (k2, v) :: rest => if k2 = k then some v else ctxGet rest k

/-- Python dict assignment `context[k] = v`. -/
def ctxSet (ctx : Ctx) (k : Str) (v : CtxVal) : Ctx :=
  match ctx with
  | [] => [(k, v)]
  | (k2, v2) :: rest =>
    if k2 = k then (k, v) :: rest else (k2, v2) :: ctxSet rest k v

theorem ctxGet_ctxSet (ctx : Ctx) (k k2 : Str) (v : CtxVal) :
    ctxGet (ctxSet ctx k v) k2 = if k = k2 then some v else ctxGet ctx k2 := by
  induction ctx with
  | nil =>
    by_cases h : k = k2 <;> simp [ctxSet, ctxGet, h]
  | cons p rest ih =>
    obtain ⟨k3, v3⟩ := p
    by_cases h3 : k3 = k
    · subst h3
      by_cases h : k3 = k2 <;> simp [ctxSet, ctxGet, h]
    · by_cases h : k3 = k2
      · subst h
        have hk : ¬ k = k3 := fun hh => h3 hh.symm
        simp [ctxSet, ctxGet, h3, hk, ih]
      · simp [ctxSet, ctxGet, h3, h, ih]

abbrev PyErr := Str

abbrev Stage := Store → Ctx → Except PyErr (Store × Ctx)

inductive Outcome where
  | success : Ctx → Outcome
  | failure : PyErr → Outcome
deriving DecidableEq

/-- A pipeline stage together with whether its table writes are durably
committed the moment they happen.  The market, technical and risk stages
write through `pandas.DataFrame.to_sql` on the raw sqlite3 connection,
and pandas' SQLite driver (`SQLiteDatabase.run_transaction`) calls
`con.commit()` after each table replacement, so those writes are durable
mid-run (flag `true`).  The report stage uses plain `conn.execute` DML
that stays in the orchestrator's open transaction until its final
`conn.commit()` (flag `false`); the strategy stage writes nothing. -/
abbrev CStage := Stage × Bool

/-- The `for agent in self.agents: agent.execute(conn, context)` loop of
`FinancialAdvisorOrchestrator.run`.  `base` is the durably committed
database state (what `conn.rollback()` would reveal), the second store
is the live state including uncommitted writes; a stage whose flag is
`true` moves the committed baseline forward to its own output.  A raised
error carries the baseline current at that moment. -/
def runAgents : List CStage → Store → Store → Ctx →
    Except (PyErr × Store) (Store × Store × Ctx)
  | [], base, st, ctx => Except.ok (base, st, ctx)
  | (a, commits) :: rest, base, st, ctx =>
    match a st ctx with
    | Except.ok p => runAgents rest (if commits then p.1 else base) p.1 p.2
    | Except.error e => Except.error (e, base)

/-- Embeds `FinancialAdvisorOrchestrator.run`: execute the stages in
order; on success `conn.commit()` makes the live state durable and the
outcome is Success with the final context; on the first raised error
`conn.rollback()` discards only the writes made since the last commit,
so the resulting store is the committed baseline — which already
contains every table replacement a `to_sql` stage made before the
failure. -/
def orchestratorRun (agents : List CStage) (st : Store) (ctx : Ctx) :
    Outcome × Store :=
  match runAgents agents st st ctx with
  | Except.ok p => (Outcome.success p.2.2, p.2.1)
  | Except.error p => (Outcome.failure p.1, p.2)

/-- C1 (code bug): the claim's rollback clause fails on the code.  In a
run whose market-data stage replaces and commits `market_data` (as
`to_sql` does) and whose technical-analysis stage then raises — e.g. the
downloaded frame has no `Close_MSFT` column for a requested ticker — the
outcome is Failure, but the committed `market_data` replacement survives
`conn.rollback()`: the final store is not the initial store, contrary to
the claim (and to orchestrator.py's own "rollback DB changes" comment). -/
theorem orchestrator_rollback_code_bug :
    orchestratorRun
        [(fun st ctx =>
            Except.ok ({ st with market_data :=
              [⟨(("2024-01-02").data),
                [((("Close_AAPL").data), some 1)]⟩] }, ctx),
          true),
         (fun _ _ => Except.error (("KeyError: Close_MSFT").data), false),
         (fun st ctx => Except.ok (st, ctx), true)]
        ⟨[], [], [], []⟩ [] =
      (Outcome.failure (("KeyError: Close_MSFT").data),
        ⟨[⟨(("2024-01-02").data), [((("Close_AAPL").data), some 1)]⟩],
          [], [], []⟩) ∧
    (⟨[⟨(("2024-01-02").data), [((("Close_AAPL").data), some 1)]⟩],
        [], [], []⟩ : Store) ≠ ⟨[], [], [], []⟩ := by
  refine ⟨rfl, by decide⟩

/-! ### StrategyAgent.execute — `agents/strategy.py` lines 48–128 -/

/-- Rendering of a possibly-NaN indicator value into the prompt. -/
def showOpt (x : Option ℚ) : Str :=
  match x with
  | none => ("nan").data
  | some q => qToStr q

/-- The prompt f-string of `StrategyAgent.execute` (`t.iloc[1]` is the
close column of the row; the JSON schema braces are escaped `\x7b\x7d`
in the source's doubled-brace form). -/
def buildPrompt (ticker : Str) (t : TechRow) (r : RiskRow) : Str :=
  (("\nYou are a cautious professional financial advisor.\n\nTicker: ").data)
    ++ ticker ++
  (("\nPrice: ").data) ++ showOpt t.close ++
  (("\nSMA20: ").data) ++ showOpt t.sma20 ++
  (("\nSMA50: ").data) ++ showOpt t.sma50 ++
  (("\nRSI: ").data) ++ showOpt t.rsi ++
  (("\nVolatility: ").data) ++ showOpt t.volatility ++
  (("\nAnnual Risk: ").data) ++ showOpt r.annualVolatility ++
  (("\nMax Drawdown: ").data) ++ showOpt r.maxDrawdown ++
  ((("\n\nReturn ONLY a valid JSON object.\nNo markdown. No explanations.\n\n\x7b\n  \"short_term\": \"Buy | Sell | Hold\",\n  \"long_term\": \"Buy | Sell | Hold\",\n  \"confidence\": 0.0,\n  \"reason\": \"one sentence explanation\"\n\x7d\n").data))

/-- The per-ticker loop of `StrategyAgent.execute`: take the last
technical row and the first risk row of the ticker (`.iloc[-1]` /
`.iloc[0]` raise IndexError on an empty selection), build the prompt,
call the LLM with retries, and parse defensively. -/
def strategiesFor (oracle : Str → Nat → Except Str Str)
    (tech : List TechRow) (risk : List RiskRow) :
    List Str → Except PyErr (List (Str × JVal))
  | [] => Except.ok []
  | tk :: rest =>
    match (tech.filter (fun row => row.ticker == tk)).getLast? with
    | none => Except.error (("IndexError: index -1 is out of bounds").data)
    | some t =>
      match (risk.filter (fun row => row.ticker == tk)).head? with
      | none => Except.error (("IndexError: index 0 is out of bounds").data)
      | some r =>
        let v := (strategyCallLLM (oracle (buildPrompt tk t r))).1
        match strategiesFor oracle tech risk rest with
        | Except.error e => Except.error e
        | Except.ok restS => Except.ok ((tk, v) :: restS)

/-- Embeds `StrategyAgent.execute`: reads `technical_analysis` and
`risk_analysis`, never writes a table, and stores `strategies` and
`run_id` into the context.  `uuid.uuid4()` is the `runId` parameter and
the LLM endpoint is the `oracle`. -/
def strategyExecute (oracle : Str → Nat → Except Str Str) (runId : Str)
    (st : Store) (ctx : Ctx) : Except PyErr (Store × Ctx) :=
  match ctxGet ctx (("tickers").data) with
  | some (CtxVal.vstrs tickers) =>
    match strategiesFor oracle st.technical_analysis st.risk_analysis
        tickers with
    | Except.error e => Except.error e
    | Except.ok strat =>
      Except.ok (st,
        ctxSet (ctxSet ctx (("strategies").data) (CtxVal.vstrat strat))
          (("run_id").data) (CtxVal.vstr runId))
  | _ => Except.error (("KeyError: tickers").data)

/-- C10: a successful `StrategyAgent.execute` leaves every store table
unchanged (it only reads), and its only context effect is setting the
keys `strategies` (to the computed mapping) and `run_id` (to the run
id); every other context key is unchanged. -/
theorem strategy_execute_frame (oracle : Str → Nat → Except Str Str)
    (runId : Str) (st st2 : Store) (ctx ctx2 : Ctx)
    (h : strategyExecute oracle runId st ctx = Except.ok (st2, ctx2)) :
    st2 = st ∧
      ctxGet ctx2 (("run_id").data) = some (CtxVal.vstr runId) ∧
      (∃ strat, ctxGet ctx2 (("strategies").data) =
        some (CtxVal.vstrat strat)) ∧
      (∀ k, k ≠ (("strategies").data) → k ≠ (("run_id").data) →
        ctxGet ctx2 k = ctxGet ctx k) := by
  cases htk : ctxGet ctx (("tickers").data) with
  | none => simp [strategyExecute, htk] at h
  | some cv =>
    cases cv with
    | vstr s => simp [strategyExecute, htk] at h
    | vstrat s => simp [strategyExecute, htk] at h
    | vstrs tickers =>
      cases hs : strategiesFor oracle st.technical_analysis
          st.risk_analysis tickers with
      | error e => simp [strategyExecute, htk, hs] at h
      | ok strat =>
        simp only [strategyExecute, htk, hs, Except.ok.injEq,
          Prod.mk.injEq] at h
        obtain ⟨hst, hctx⟩ := h
        refine ⟨hst.symm, ?_, ?_, ?_⟩
        · rw [← hctx, ctxGet_ctxSet, if_pos rfl]
        · refine ⟨strat, ?_⟩
          rw [← hctx, ctxGet_ctxSet, if_neg (by decide), ctxGet_ctxSet,
            if_pos rfl]
        · intro k hk1 hk2
          rw [← hctx, ctxGet_ctxSet,
            if_neg (fun hh => hk2 hh.symm), ctxGet_ctxSet,
            if_neg (fun hh => hk1 hh.symm)]

/-- C10 witness: one ticker, an unreachable LLM; the stage succeeds with
the fallback strategy, the store is untouched and `run_id` is set. -/
theorem strategy_execute_frame_witness :
    ctxGet
        [((("tickers").data), CtxVal.vstrs [(("AAPL").data)]),
         ((("strategies").data),
           CtxVal.vstrat [((("AAPL").data), fallbackRec)]),
         ((("run_id").data), CtxVal.vstr (("rid").data))]
        (("run_id").data) = some (CtxVal.vstr (("rid").data)) :=
  (strategy_execute_frame
    (fun _ _ => Except.error (("refused").data)) (("rid").data)
    ⟨[], [⟨(("d").data), some 1, none, none, none, none, (("AAPL").data)⟩],
      [⟨(("AAPL").data), none, none⟩], []⟩
    ⟨[], [⟨(("d").data), some 1, none, none, none, none, (("AAPL").data)⟩],
      [⟨(("AAPL").data), none, none⟩], []⟩
    [((("tickers").data), CtxVal.vstrs [(("AAPL").data)])]
    [((("tickers").data), CtxVal.vstrs [(("AAPL").data)]),
     ((("strategies").data), CtxVal.vstrat [((("AAPL").data), fallbackRec)]),
     ((("run_id").data), CtxVal.vstr (("rid").data))]
    rfl).2.1

/-! ### ReportAgent.execute as a pipeline stage — `agents/report.py` -/

/-- Embeds `ReportAgent.execute`: build the report text (raising on a missing
key or a non-coercible confidence), then clear-and-insert the single
`report` row and store the text in the context. -/
def reportExecute (now : Str) (st : Store) (ctx : Ctx) :
    Except PyErr (Store × Ctx) :=
  match ctxGet ctx (("run_id").data) with
  | some (CtxVal.vstr runId) =>
    match ctxGet ctx (("strategies").data) with
    | some (CtxVal.vstrat strat) =>
      match renderReportText runId now strat with
      | Except.error e => Except.error e
      | Except.ok text =>
        Except.ok ({ st with report := [text] },
          ctxSet ctx (("report").data) (CtxVal.vstr text))
    | _ => Except.error (("KeyError: strategies").data)
  | _ => Except.error (("KeyError: run_id").data)

/-- C4 counterexample: a response whose confidence is the string
"very high" is NOT treated as a parse failure — `safe_json_parse`
returns the object unchanged (no fallback) — and the coercion failure in
the Report stage makes the whole run fail, so it is not contained in the
Recommendation Client. -/
theorem confidence_leak_counterexample :
    safe_json_parse
        (("\x7b\"short_term\": \"Buy\", \"long_term\": \"Hold\", \"confidence\": \"very high\", \"reason\": \"x\"\x7d").data) =
      JVal.jobj
        [(("short_term").data, JVal.jstr (("Buy").data)),
         (("long_term").data, JVal.jstr (("Hold").data)),
         (("confidence").data, JVal.jstr (("very high").data)),
         (("reason").data, JVal.jstr (("x").data))] ∧
    safe_json_parse
        (("\x7b\"short_term\": \"Buy\", \"long_term\": \"Hold\", \"confidence\": \"very high\", \"reason\": \"x\"\x7d").data)
      ≠ fallbackRec ∧
    orchestratorRun [(fun s c => reportExecute (("t0").data) s c, false)]
        ⟨[], [], [], []⟩
        [((("run_id").data), CtxVal.vstr (("rid").data)),
         ((("strategies").data),
           CtxVal.vstrat
             [((("AAPL").data),
               JVal.jobj
                 [(("short_term").data, JVal.jstr (("Buy").data)),
                  (("long_term").data, JVal.jstr (("Hold").data)),
                  (("confidence").data, JVal.jstr (("very high").data)),
                  (("reason").data, JVal.jstr (("x").data))])])] =
      (Outcome.failure (("ValueError: could not convert to float").data),
        ⟨[], [], [], []⟩) := by
  refine ⟨by decide, by decide, by decide⟩

/-- C4 (amended): when the decoded object's confidence is not
float-coercible, `safe_json_parse` still returns the object (the
fallback is not substituted); the coercion then happens inside
`ReportAgent.execute`, whose ValueError propagates, so the run fails and
rolls back — the failure is NOT contained in the Recommendation
Client. -/
theorem confidence_coercion_contract (t sub : Str) (v cv sv lv : JVal)
    (tk runId now : Str) (st : Store) (ctx : Ctx)
    (hex : extractBraces t = some sub)
    (hp : jsonParse sub = some v)
    (hst : objGet v (("short_term").data) = some sv)
    (hlt : objGet v (("long_term").data) = some lv)
    (hcv : objGet v (("confidence").data) = some cv)
    (hfl : pyFloat cv = none)
    (hrun : ctxGet ctx (("run_id").data) = some (CtxVal.vstr runId))
    (hstr : ctxGet ctx (("strategies").data) =
      some (CtxVal.vstrat [(tk, v)])) :
    safe_json_parse t = v ∧
      renderBlock tk v =
        Except.error (("ValueError: could not convert to float").data) ∧
      orchestratorRun [(fun s c => reportExecute now s c, false)] st ctx =
        (Outcome.failure
          (("ValueError: could not convert to float").data), st) := by
  have h2 : renderBlock tk v =
      Except.error (("ValueError: could not convert to float").data) := by
    simp only [renderBlock, hst, hlt, hcv, hfl]
  have h3 : reportExecute now st ctx =
      Except.error (("ValueError: could not convert to float").data) := by
    simp only [reportExecute, hrun, hstr, renderReportText, renderBlocks, h2]
  refine ⟨?_, h2, ?_⟩
  · simp only [safe_json_parse, hex, hp]
  · simp [orchestratorRun, runAgents, h3]

/-- C4 witness: the amended behavior at the concrete "very high"
confidence. -/
theorem confidence_coercion_contract_witness :
    renderBlock (("AAPL").data)
        (JVal.jobj
          [(("short_term").data, JVal.jstr (("Buy").data)),
           (("long_term").data, JVal.jstr (("Hold").data)),
           (("confidence").data, JVal.jstr (("very high").data)),
           (("reason").data, JVal.jstr (("x").data))]) =
      Except.error (("ValueError: could not convert to float").data) :=
  (confidence_coercion_contract
    (("\x7b\"short_term\": \"Buy\", \"long_term\": \"Hold\", \"confidence\": \"very high\", \"reason\": \"x\"\x7d").data)
    (("\x7b\"short_term\": \"Buy\", \"long_term\": \"Hold\", \"confidence\": \"very high\", \"reason\": \"x\"\x7d").data)
    (JVal.jobj
      [(("short_term").data, JVal.jstr (("Buy").data)),
       (("long_term").data, JVal.jstr (("Hold").data)),
       (("confidence").data, JVal.jstr (("very high").data)),
       (("reason").data, JVal.jstr (("x").data))])
    (JVal.jstr (("very high").data))
    (JVal.jstr (("Buy").data)) (JVal.jstr (("Hold").data))
    (("AAPL").data) (("rid").data) (("t0").data)
    ⟨[], [], [], []⟩
    [((("run_id").data), CtxVal.vstr (("rid").data)),
     ((("strategies").data),
       CtxVal.vstrat
         [((("AAPL").data),
           JVal.jobj
             [(("short_term").data, JVal.jstr (("Buy").data)),
              (("long_term").data, JVal.jstr (("Hold").data)),
              (("confidence").data, JVal.jstr (("very high").data)),
              (("reason").data, JVal.jstr (("x").data))])])]
    (by decide) (by decide) (by decide) (by decide) (by decide) (by decide)
    (by decide) (by decide)).2.1

end AFA
